import Mathlib

/-!
Shallow embedding of `websocketproxy.go` (package `websocketproxy`,
repository button-chen/websocketproxy) and proofs about it.

Modelling conventions:
* Go `int` counters and budgets are modelled by `Nat` / `Int`; the only
  arithmetic performed on them is increment, decrement and `% n`, far from
  the 2^63 overflow boundary, so wrap-around is immaterial and not modelled.
* The Go map `DesolateBackend map[int]int` is modelled as a total function
  `Nat → Int` defaulting to `0`: in `selectBackend` a missing key and a key
  with value `≤ 0` behave identically (both `break`), and the map is only
  ever written at the selected index (values `5`, `0`, or a decrement of a
  positive value), so the presence bit is not observable.
* `rand.Intn(backendcnt)` is modelled by an oracle argument `rnd : Nat`
  reduced `% backendcnt`, which ranges over exactly the values `Intn` can
  return when `backendcnt ≥ 1`.  (For `backendcnt = 0` the Go call would
  panic; all theorems about `selectBackend` assume a nonempty pool, and the
  handler-level theorems show the selection is not reached on an empty pool.)
* `websocket.Dialer.Dial` and `Upgrader.Upgrade` are external capabilities;
  they are modelled as oracle parameters.  The dial oracle takes the attempt
  number so that successive attempts may observe different outcomes.
* `http.Header` is modelled as `String → List String` with keys already in
  Go canonical form (`http.CanonicalHeaderKey`), e.g.
  `"Sec-Websocket-Protocol"`; `Header.Get` returns the first value or `""`,
  `Add` appends, `Set` replaces with a singleton.
-/

namespace WebsocketProxy

/-- Model of Go `net/url.URL`, restricted to the fields `websocketproxy.go`
reads or writes (`Scheme`, `Host`, `Path`, `RawQuery`, `Fragment`). -/
structure URL where
  scheme : String
  host : String
  path : String
  rawQuery : String
  fragment : String
deriving Inhabited, DecidableEq, Repr

/-- Model of Go `http.Header`: a total map from (canonical) header key to the
ordered list of values for that key; a key with no values maps to `[]`. -/
abbrev Header := String → List String

/-- The empty header set (`http.Header{}`). -/
def emptyHeader : Header := fun _ => []

/-- `http.Header.Add`: append one value to a key, preserving order. -/
def hAdd (h : Header) (k v : String) : Header :=
  fun k' => if k' = k then h k ++ [v] else h k'

/-- `http.Header.Set`: replace the values of a key with a single value. -/
def hSet (h : Header) (k v : String) : Header :=
  fun k' => if k' = k then [v] else h k'

/-- `http.Header.Get`: first value of the key, or `""` when absent. -/
def hGet (h : Header) (k : String) : String := (h k).headD ""

/-- Model of the fields of Go `*http.Request` that `websocketproxy.go`
reads: the header map, `RemoteAddr`, whether `req.TLS != nil`, and the
request URL. -/
structure Request where
  header : Header
  remoteAddr : String
  tls : Bool
  url : URL

/-- The process-wide mutable selection state of `WebsocketProxy`:
`ReqCount` (the shared selection counter) and `DesolateBackend` (the
per-backend skip-budget map, total with default `0`, see the file header). -/
structure ProxyState where
  reqCount : Nat
  desolate : Nat → Int

/-- Pointwise update of the skip-budget map (`w.DesolateBackend[k] = v`). -/
def updateMap (m : Nat → Int) (k : Nat) (v : Int) : Nat → Int :=
  fun j => if j = k then v else m j

/-- A skip-budget map whose only (possibly) nonzero entry is backend `i`
with budget `v`; all other backends are healthy/eligible. -/
def singleBudget (i : Nat) (v : Int) : Nat → Int :=
  fun j => if j = i then v else 0

/-- The `for` loop of `selectBackend` (websocketproxy.go:82-100), with the
remaining attempt allowance `fuel = backendcnt - selectcnt` made explicit:
when the allowance is exhausted (`selectcnt >= backendcnt`) the loop falls
back to a random index (`rand.Intn`, modelled by `rnd % backendcnt`);
otherwise it increments `ReqCount`, computes `index = ReqCount % backendcnt`,
and either skips `index` (positive skip budget: decrement it and retry) or
returns it. -/
def selectLoop (backendcnt rnd : Nat) : Nat → ProxyState → Nat × ProxyState
  | 0, st => (rnd % backendcnt, st)
  | fuel + 1, st =>
      let reqCount := st.reqCount + 1
      let index := reqCount % backendcnt
      if 0 < st.desolate index then
        selectLoop backendcnt rnd fuel
          ⟨reqCount, updateMap st.desolate index (st.desolate index - 1)⟩
      else
        (index, ⟨reqCount, st.desolate⟩)

/-- `(*WebsocketProxy).selectBackend` (websocketproxy.go:79-103): one
backend-selection call, started with `selectcnt = 0`, i.e. attempt
allowance `backendcnt`. -/
def selectBackend (backendcnt rnd : Nat) (st : ProxyState) : Nat × ProxyState :=
  selectLoop backendcnt rnd backendcnt st

/-- A sequence of consecutive `selectBackend` calls (one per element of
`rnds`, each element being that call's random-fallback oracle), returning
the list of selected indices in call order and the final state. -/
def selectN (backendcnt : Nat) : List Nat → ProxyState → List Nat × ProxyState
  | [], st => ([], st)
  | rnd :: rnds, st =>
      let s1 := selectBackend backendcnt rnd st
      let s2 := selectN backendcnt rnds s1.2
      (s1.1 :: s2.1, s2.2)

/-- `(*WebsocketProxy).getRequestURL` (websocketproxy.go:67-77), with the
returned closure already applied to the inbound request: shallow-copy the
registered target URL, then overwrite `Fragment`, `Path` and `RawQuery`
with the inbound request's values. -/
def getRequestURL (target : URL) (r : Request) : URL :=
  { target with
      fragment := r.url.fragment
      path := r.url.path
      rawQuery := r.url.rawQuery }

/-- Index of the last occurrence of `c` in `l`, if any (the `last` index
scan used by `net.SplitHostPort`). -/
def lastIndexOfChar (c : Char) : List Char → Option Nat
  | [] => none
  | a :: rest =>
      match lastIndexOfChar c rest with
      | some i => some (i + 1)
      | none => if a = c then some 0 else none

/-- Index of the first occurrence of `c` in `l`, if any. -/
def firstIndexOfChar (c : Char) : List Char → Option Nat
  | [] => none
  | a :: rest => if a = c then some 0 else (firstIndexOfChar c rest).map (· + 1)

/-- Model of Go `net.SplitHostPort` for the `host:port` and `[host]:port`
shapes: split at the last `':'`; fail when there is no colon, when a
non-bracketed host still contains a colon (`too many colons`), or when a
bracketed address is not of the form `[host]:port`.  (The stdlib's
additional rejection of stray `[`/`]` bytes inside host or port is not
modelled; it only rejects further malformed inputs.) -/
def splitHostPort (s : String) : Option (String × String) :=
  let cs := s.toList
  match lastIndexOfChar ':' cs with
  | none => none
  | some i =>
      let port := (cs.drop (i + 1)).asString
      if cs.headD ' ' = '[' then
        match firstIndexOfChar ']' cs with
        | none => none
        | some e => if e + 1 = i then some (((cs.drop 1).take (e - 1)).asString, port) else none
      else
        let host := cs.take i
        if host.contains ':' then none else some (host.asString, port)

/-- The outbound header set built by `connectBackend`
(websocketproxy.go:132-163), before the `Director` hook: copy `Origin` (first
value) when present, all `Sec-WebSocket-Protocol` values, all `Cookie`
values; when `net.SplitHostPort(req.RemoteAddr)` succeeds, set
`X-Forwarded-For` to any prior values joined by `", "` with the peer IP
appended; set `X-Forwarded-Proto` to `"http"`, overwritten by `"https"`
when `req.TLS != nil`. -/
def buildRequestHeader (req : Request) : Header :=
  let h0 := emptyHeader
  let h1 := if hGet req.header "Origin" ≠ "" then
      hAdd h0 "Origin" (hGet req.header "Origin") else h0
  let h2 := (req.header "Sec-Websocket-Protocol").foldl
      (fun h prot => hAdd h "Sec-Websocket-Protocol" prot) h1
  let h3 := (req.header "Cookie").foldl (fun h c => hAdd h "Cookie" c) h2
  let h4 := match splitHostPort req.remoteAddr with
    | some (clientIP, _) =>
        let joined := if req.header "X-Forwarded-For" ≠ [] then
            String.intercalate ", " (req.header "X-Forwarded-For") ++ ", " ++ clientIP
          else clientIP
        hSet h3 "X-Forwarded-For" joined
    | none => h3
  let h5 := hSet h4 "X-Forwarded-Proto" "http"
  if req.tls then hSet h5 "X-Forwarded-Proto" "https" else h5

/-- The outbound header set with the optional `Director` hook applied last
(websocketproxy.go:167-169).  The hook is modelled functionally: it receives
the inbound request and the headers built so far and returns the final
header set. -/
def buildRequestHeaderD (director : Option (Request → Header → Header)) (req : Request) : Header :=
  match director with
  | some d => d req (buildRequestHeader req)
  | none => buildRequestHeader req

/-- Result of a successful backend dial: an abstract connection identifier
and the backend's handshake response headers (`resp.Header`). -/
structure DialResp where
  conn : Nat
  respHeader : Header

/-- The reduced header set passed to the upgrader on dial success
(websocketproxy.go:184-191): only `Sec-Websocket-Protocol` and `Set-Cookie`
(first value each, via `Get`/`Set`) survive from the backend's handshake
response. -/
def reduceUpgradeHeader (resp : Header) : Header :=
  let h0 := emptyHeader
  let h1 := if hGet resp "Sec-Websocket-Protocol" ≠ "" then
      hSet h0 "Sec-Websocket-Protocol" (hGet resp "Sec-Websocket-Protocol") else h0
  if hGet resp "Set-Cookie" ≠ "" then hSet h1 "Set-Cookie" (hGet resp "Set-Cookie") else h1

/-- `(*WebsocketProxy).connectBackend` (websocketproxy.go:123-194): select a
backend, resolve its URL for this request, build the outbound headers, dial.
On dial failure set the selected backend's skip budget to `5` and return the
dial error; on success reset the budget to `0` and return the connection
with the reduced upgrade headers.  `dial` is the `websocket.Dialer.Dial`
capability. -/
def connectBackend (dial : URL → Header → Except String DialResp)
    (director : Option (Request → Header → Header)) (rnd : Nat)
    (backends : List URL) (req : Request) (st : ProxyState) :
    Except String (Nat × Header) × ProxyState :=
  let sel := selectBackend backends.length rnd st
  let backendURL := getRequestURL (backends.getD sel.1 default) req
  let requestHeader := buildRequestHeaderD director req
  match dial backendURL requestHeader with
  | .error e => (.error e, ⟨sel.2.reqCount, updateMap sel.2.desolate sel.1 5⟩)
  | .ok resp =>
      (.ok (resp.conn, reduceUpgradeHeader resp.respHeader),
       ⟨sel.2.reqCount, updateMap sel.2.desolate sel.1 0⟩)

/-- The `for i := 0; i < backendCount; i++` loop of `tryGetBackendConn`
(websocketproxy.go:112-119), with `fuel = backendCount - i`: try
`connectBackend`; on error continue with the next attempt, on success
return.  After the last attempt, return the `"No backend available"` error.
The dial and random oracles are indexed by the attempt counter `i`. -/
def tryLoop (dial : Nat → URL → Header → Except String DialResp)
    (director : Option (Request → Header → Header)) (rnd : Nat → Nat)
    (backends : List URL) (req : Request) :
    Nat → Nat → ProxyState → Except String (Nat × Header) × ProxyState
  | _, 0, st => (.error "No backend available", st)
  | i, fuel + 1, st =>
      let r := connectBackend (dial i) director (rnd i) backends req st
      match r.1 with
      | .error _ => tryLoop dial director rnd backends req (i + 1) fuel r.2
      | .ok v => (.ok v, r.2)

/-- `(*WebsocketProxy).tryGetBackendConn` (websocketproxy.go:110-121): at
most `len(w.Backends)` establishment attempts, first success wins. -/
def tryGetBackendConn (dial : Nat → URL → Header → Except String DialResp)
    (director : Option (Request → Header → Header)) (rnd : Nat → Nat)
    (backends : List URL) (req : Request) (st : ProxyState) :
    Except String (Nat × Header) × ProxyState :=
  tryLoop dial director rnd backends req 0 backends.length st

/-- Observable outcome of one `ServeHTTP` call, up to the start of the relay
phase (the relay tasks are modelled separately by `relayTask`):
an error response written via `http.Error`, a failed upgrade (backend
connection closed, nothing written), or a successfully established session
with the two connections. -/
inductive ServeOutcome where
  | errorResponse (status : Nat) (body : String)
  | upgradeFailed (backendConn : Nat)
  | relayed (backendConn clientConn : Nat)
deriving DecidableEq, Repr

/-- `(*WebsocketProxy).ServeHTTP` (websocketproxy.go:198-247) up to the
relay phase: establish a backend connection (on failure answer
`http.Error(rw, "internal server error (code: 2)", 500)`, whose body is the
message plus the `Fprintln` newline), then upgrade the inbound connection
with the harvested headers (`upgrade` is the `Upgrader.Upgrade` capability;
on failure no response body is produced). -/
def serveHTTP (dial : Nat → URL → Header → Except String DialResp)
    (director : Option (Request → Header → Header)) (rnd : Nat → Nat)
    (upgrade : Request → Header → Except String Nat)
    (backends : List URL) (req : Request) (st : ProxyState) :
    ServeOutcome × ProxyState :=
  let r := tryGetBackendConn dial director rnd backends req st
  match r.1 with
  | .error _ => (.errorResponse 500 "internal server error (code: 2)\n", r.2)
  | .ok (conn, upgradeHeader) =>
      match upgrade req upgradeHeader with
      | .error _ => (.upgradeFailed conn, r.2)
      | .ok pub => (.relayed conn pub, r.2)

/-- A WebSocket message as the relay sees it: the gorilla message type tag
(`1` = text, `2` = binary) and the payload bytes. -/
abbrev Msg := Nat × List Nat

/-- The `replicateWebsocketConn` closure (websocketproxy.go:224-241),
run over a trace of read results.  `reads` is the sequence of
`src.ReadMessage()` results this run observes; `writeRes m` is the result of
`dst.WriteMessage` for message `m` (`none` = success).  Faithful to the Go
scoping: the outer `var err error` (threaded here as `outerErr`) is shadowed
by `msgType, msg, err := src.ReadMessage()` inside the loop, so the loop
never assigns it, and `errc <- err` sends the untouched outer value.
Returns `(messages written to dst in order,
         value sent on errc (`none` while the loop is still blocked reading),
         the error that terminated the loop, if it has terminated)`. -/
def relayTask (writeRes : Msg → Option String) :
    Option String → List (Except String Msg) → List Msg × Option (Option String) × Option String
  | _, [] => ([], none, none)
  | outerErr, .error e :: _ => ([], some outerErr, some e)
  | outerErr, .ok m :: rest =>
      match writeRes m with
      | some e => ([], some outerErr, some e)
      | none =>
          let r := relayTask writeRes outerErr rest
          (m :: r.1, r.2.1, r.2.2)

/-- One relay task as started by `ServeHTTP`: the outer `err` starts as the
zero value `nil` (`none`). -/
def replicateWebsocketConn (writeRes : Msg → Option String)
    (reads : List (Except String Msg)) :
    List Msg × Option (Option String) × Option String :=
  relayTask writeRes none reads

/-- The messages successfully read before the first read error of a trace:
what a fully functioning relay ought to forward. -/
def msgsBeforeReadError : List (Except String Msg) → List Msg
  | [] => []
  | .error _ :: _ => []
  | .ok m :: rest => m :: msgsBeforeReadError rest

/-! ## Lemmas about the selection loop -/

/-- One pass of the selection loop over an eligible index returns it and
only increments the counter. -/
lemma selectLoop_eligible (N rnd fuel : Nat) (st : ProxyState)
    (h : st.desolate ((st.reqCount + 1) % N) ≤ 0) :
    selectLoop N rnd (fuel + 1) st =
      ((st.reqCount + 1) % N, ⟨st.reqCount + 1, st.desolate⟩) := by
  have hn : ¬ 0 < st.desolate ((st.reqCount + 1) % N) := by omega
  simp only [selectLoop, hn, if_false]

/-- One pass of the selection loop over a penalized index decrements its
budget and retries with one less attempt allowance. -/
lemma selectLoop_skip (N rnd fuel : Nat) (st : ProxyState)
    (h : 0 < st.desolate ((st.reqCount + 1) % N)) :
    selectLoop N rnd (fuel + 1) st =
      selectLoop N rnd fuel
        ⟨st.reqCount + 1,
         updateMap st.desolate ((st.reqCount + 1) % N)
           (st.desolate ((st.reqCount + 1) % N) - 1)⟩ := by
  simp only [selectLoop, h, if_true]

/-- A `selectBackend` call whose round-robin index is eligible returns that
index immediately, incrementing the counter once and leaving budgets
untouched. -/
lemma selectBackend_eligible (N rnd : Nat) (hN : 0 < N) (st : ProxyState)
    (h : st.desolate ((st.reqCount + 1) % N) ≤ 0) :
    selectBackend N rnd st = ((st.reqCount + 1) % N, ⟨st.reqCount + 1, st.desolate⟩) := by
  obtain ⟨m, rfl⟩ : ∃ m, N = m + 1 := ⟨N - 1, by omega⟩
  exact selectLoop_eligible (m + 1) rnd m st h

/-- Advancing the counter by `k` with `0 < k < N` moves the round-robin
index to a different backend. -/
lemma add_mod_ne (N c k : Nat) (hk : 0 < k) (hkN : k < N) :
    (c + 1 + k) % N ≠ (c + 1) % N := by
  intro h
  have hN : 0 < N := lt_of_le_of_lt (Nat.zero_le k) hkN
  have haN : (c + 1) % N < N := Nat.mod_lt _ hN
  have h1 : ((c + 1) % N + k) % N = (c + 1) % N := by
    rw [Nat.mod_add_mod, h]
  rcases Nat.lt_or_ge ((c + 1) % N + k) N with hlt | hge
  · rw [Nat.mod_eq_of_lt hlt] at h1
    omega
  · rw [Nat.mod_eq_sub_mod hge, Nat.mod_eq_of_lt (by omega)] at h1
    omega

/-- A run of consecutive selections all of whose round-robin indices are
eligible returns exactly the consecutive indices `(reqCount+1+j) % N` and
only advances the counter, one increment per call. -/
lemma selectN_run (N : Nat) (hN : 0 < N) :
    ∀ (rnds : List Nat) (st : ProxyState),
      (∀ j, j < rnds.length → st.desolate ((st.reqCount + 1 + j) % N) ≤ 0) →
      selectN N rnds st =
        ((List.range rnds.length).map (fun j => (st.reqCount + 1 + j) % N),
          ⟨st.reqCount + rnds.length, st.desolate⟩)
  | [], st, _ => by simp [selectN]
  | rnd :: rnds, st, h => by
      have h0 : st.desolate ((st.reqCount + 1) % N) ≤ 0 := by
        simpa using h 0 (Nat.succ_pos _)
      have hrec : ∀ j, j < rnds.length →
          (⟨st.reqCount + 1, st.desolate⟩ : ProxyState).desolate
            (((⟨st.reqCount + 1, st.desolate⟩ : ProxyState).reqCount + 1 + j) % N) ≤ 0 := by
        intro j hj
        have hj1 := h (j + 1) (by simpa using Nat.succ_lt_succ hj)
        have e : st.reqCount + 1 + (j + 1) = st.reqCount + 1 + 1 + j := by omega
        simpa [e] using hj1
      show ((selectBackend N rnd st).1 :: (selectN N rnds (selectBackend N rnd st).2).1,
             (selectN N rnds (selectBackend N rnd st).2).2) = _
      rw [selectBackend_eligible N rnd hN st h0,
        selectN_run N hN rnds ⟨st.reqCount + 1, st.desolate⟩ hrec]
      rw [List.length_cons, List.range_succ_eq_map, List.map_cons, List.map_map]
      refine Prod.ext ?_ ?_
      · show (st.reqCount + 1) % N :: _ = (st.reqCount + 1 + 0) % N :: _
        rw [Nat.add_zero]
        refine congrArg _ ?_
        refine List.map_congr_left ?_
        intro a _
        show (st.reqCount + 1 + 1 + a) % N = (st.reqCount + 1 + (a + 1)) % N
        congr 1
        omega
      · show (⟨st.reqCount + 1 + rnds.length, st.desolate⟩ : ProxyState) =
          ⟨st.reqCount + (rnds.length + 1), st.desolate⟩
        congr 1
        omega

/-- Attempt and counter bounds for the selection loop: the result is a valid
index and the counter advances at most once per attempt allowance. -/
lemma selectLoop_bound (N rnd : Nat) (hN : 0 < N) :
    ∀ (fuel : Nat) (st : ProxyState),
      (selectLoop N rnd fuel st).1 < N ∧
      (selectLoop N rnd fuel st).2.reqCount ≤ st.reqCount + fuel
  | 0, st => ⟨Nat.mod_lt _ hN, Nat.le_add_right _ _⟩
  | fuel + 1, st => by
      by_cases h : 0 < st.desolate ((st.reqCount + 1) % N)
      · rw [selectLoop_skip N rnd fuel st h]
        have ih := selectLoop_bound N rnd hN fuel
          ⟨st.reqCount + 1,
           updateMap st.desolate ((st.reqCount + 1) % N)
             (st.desolate ((st.reqCount + 1) % N) - 1)⟩
        exact ⟨ih.1, by have h2 := ih.2; simp only at h2 ⊢; omega⟩
      · rw [selectLoop_eligible N rnd fuel st (by omega)]
        exact ⟨Nat.mod_lt _ hN, by simp only; omega⟩

/-- When every index the loop visits is penalized, the whole attempt
allowance is consumed and the loop falls back to the random index. -/
lemma selectLoop_all_skip (N rnd : Nat) :
    ∀ (fuel : Nat), fuel ≤ N → ∀ (st : ProxyState),
      (∀ j, j < fuel → 0 < st.desolate ((st.reqCount + 1 + j) % N)) →
      (selectLoop N rnd fuel st).1 = rnd % N
  | 0, _, st, _ => rfl
  | fuel + 1, hfN, st, h => by
      have h0 : 0 < st.desolate ((st.reqCount + 1) % N) := by
        simpa using h 0 (Nat.succ_pos _)
      rw [selectLoop_skip N rnd fuel st h0]
      apply selectLoop_all_skip N rnd fuel (by omega)
      intro j hj
      simp only [updateMap]
      have hne : (st.reqCount + 1 + 1 + j) % N ≠ (st.reqCount + 1) % N := by
        have e : st.reqCount + 1 + 1 + j = st.reqCount + 1 + (j + 1) := by omega
        rw [e]
        exact add_mod_ne N st.reqCount (j + 1) (Nat.succ_pos _) (by omega)
      rw [if_neg hne]
      have hj1 := h (j + 1) (by omega)
      have e : st.reqCount + 1 + (j + 1) = st.reqCount + 1 + 1 + j := by omega
      rwa [e] at hj1

/-- Updating the only nonzero entry of a one-entry budget map yields a
one-entry budget map. -/
lemma updateMap_singleBudget (i : Nat) (b v : Int) :
    updateMap (singleBudget i b) i v = singleBudget i v := by
  funext j
  simp only [updateMap, singleBudget]
  by_cases h : j = i <;> simp [h]

/-- A `selectBackend` call (pool of at least two) whose round-robin index is
penalized but whose next index is eligible: the penalized backend's budget
is decremented, the counter advances twice, and the next index is
returned. -/
lemma selectBackend_skip_turn (N rnd : Nat) (hN : 2 ≤ N) (st : ProxyState)
    (hpos : 0 < st.desolate ((st.reqCount + 1) % N))
    (hnext : st.desolate ((st.reqCount + 2) % N) ≤ 0) :
    selectBackend N rnd st =
      ((st.reqCount + 2) % N,
       ⟨st.reqCount + 2,
        updateMap st.desolate ((st.reqCount + 1) % N)
          (st.desolate ((st.reqCount + 1) % N) - 1)⟩) := by
  have hne : (st.reqCount + 1 + 1) % N ≠ (st.reqCount + 1) % N :=
    add_mod_ne N st.reqCount 1 Nat.one_pos (by omega)
  obtain ⟨m, rfl⟩ : ∃ m, N = m + 2 := ⟨N - 2, by omega⟩
  show selectLoop (m + 2) rnd (m + 2) st = _
  rw [selectLoop_skip (m + 2) rnd (m + 1) st hpos]
  have helig :
      (⟨st.reqCount + 1,
        updateMap st.desolate ((st.reqCount + 1) % (m + 2))
          (st.desolate ((st.reqCount + 1) % (m + 2)) - 1)⟩ : ProxyState).desolate
        ((st.reqCount + 1 + 1) % (m + 2)) ≤ 0 := by
    simp only [updateMap]
    rw [if_neg hne]
    have e : st.reqCount + 1 + 1 = st.reqCount + 2 := by omega
    rw [e]
    exact hnext
  rw [selectLoop_eligible (m + 2) rnd m _ helig]

/-- Splitting a run of selections at any point. -/
lemma selectN_append (N : Nat) :
    ∀ (l1 l2 : List Nat) (st : ProxyState),
      selectN N (l1 ++ l2) st =
        ((selectN N l1 st).1 ++ (selectN N l2 (selectN N l1 st).2).1,
         (selectN N l2 (selectN N l1 st).2).2)
  | [], _, st => rfl
  | r :: l1, l2, st => by
      show ((selectBackend N r st).1 :: (selectN N (l1 ++ l2) (selectBackend N r st).2).1,
            (selectN N (l1 ++ l2) (selectBackend N r st).2).2) = _
      rw [selectN_append N l1 l2 (selectBackend N r st).2]
      rfl

/-- One backoff cycle: starting right before the penalized backend's turn
(only backend `(c+1) % N` has a positive budget `b`), the next `N - 1`
selections skip it once (decrementing its budget to `b - 1`), return the
following `N - 1` round-robin indices, and advance the counter `N` times. -/
lemma selectN_cycle (N : Nat) (hN : 2 ≤ N) (b : Int) (hb : 0 < b) (c : Nat)
    (rnds : List Nat) (hlen : rnds.length = N - 1) :
    selectN N rnds ⟨c, singleBudget ((c + 1) % N) b⟩ =
      ((List.range (N - 1)).map (fun j => (c + 2 + j) % N),
       ⟨c + N, singleBudget ((c + 1) % N) (b - 1)⟩) := by
  obtain ⟨m, rfl⟩ : ∃ m, N = m + 2 := ⟨N - 2, by omega⟩
  have hm1 : m + 2 - 1 = m + 1 := by omega
  rw [hm1] at hlen
  obtain ⟨r, rest, rfl⟩ : ∃ r rest, rnds = r :: rest := by
    cases rnds with
    | nil => simp at hlen
    | cons r rest => exact ⟨r, rest, rfl⟩
  have hrl : rest.length = m := by simpa using hlen
  have hpos : (0 : Int) < singleBudget ((c + 1) % (m + 2)) b ((c + 1) % (m + 2)) := by
    simp [singleBudget, hb]
  have hne1 : (c + 1 + 1) % (m + 2) ≠ (c + 1) % (m + 2) :=
    add_mod_ne (m + 2) c 1 Nat.one_pos (by omega)
  have hnext : singleBudget ((c + 1) % (m + 2)) b ((c + 2) % (m + 2)) ≤ 0 := by
    have e : c + 2 = c + 1 + 1 := by omega
    rw [e]
    simp [singleBudget, hne1]
  show ((selectBackend (m + 2) r ⟨c, singleBudget ((c + 1) % (m + 2)) b⟩).1 ::
        (selectN (m + 2) rest
          (selectBackend (m + 2) r ⟨c, singleBudget ((c + 1) % (m + 2)) b⟩).2).1,
        (selectN (m + 2) rest
          (selectBackend (m + 2) r ⟨c, singleBudget ((c + 1) % (m + 2)) b⟩).2).2) = _
  rw [selectBackend_skip_turn (m + 2) r (by omega) _ hpos hnext]
  dsimp only
  have hval : singleBudget ((c + 1) % (m + 2)) b ((c + 1) % (m + 2)) = b := by
    simp [singleBudget]
  rw [hval, updateMap_singleBudget]
  have hrest : ∀ j, j < rest.length →
      singleBudget ((c + 1) % (m + 2)) (b - 1) ((c + 2 + 1 + j) % (m + 2)) ≤ 0 := by
    intro j hj
    rw [hrl] at hj
    have hne : (c + 1 + (2 + j)) % (m + 2) ≠ (c + 1) % (m + 2) :=
      add_mod_ne (m + 2) c (2 + j) (by omega) (by omega)
    have e : c + 2 + 1 + j = c + 1 + (2 + j) := by omega
    rw [e]
    simp [singleBudget, hne]
  rw [selectN_run (m + 2) (by omega) rest
    ⟨c + 2, singleBudget ((c + 1) % (m + 2)) (b - 1)⟩ hrest]
  rw [hrl, hm1, List.range_succ_eq_map, List.map_cons, List.map_map]
  refine Prod.ext ?_ ?_
  · show (c + 2) % (m + 2) :: _ = (c + 2 + 0) % (m + 2) :: _
    rw [Nat.add_zero]
    refine congrArg _ ?_
    refine List.map_congr_left ?_
    intro a _
    show (c + 2 + 1 + a) % (m + 2) = (c + 2 + (a + 1)) % (m + 2)
    congr 1
    omega
  · show (⟨c + 2 + m, singleBudget ((c + 1) % (m + 2)) (b - 1)⟩ : ProxyState) = _
    congr 1
    omega

/-- `m` backoff cycles: as long as the budget lasts (`m ≤ b`), the
penalized backend `i` is never selected, its budget drops by one per cycle
(each cycle being the `N - 1` calls spanning one pass over its index), and
the counter advances `N` times per cycle. -/
lemma selectN_cycles (N i : Nat) (hN : 2 ≤ N) :
    ∀ (m : Nat) (b : Int), (m : Int) ≤ b →
    ∀ (c : Nat), (c + 1) % N = i →
    ∀ (rnds : List Nat), rnds.length = m * (N - 1) →
      (selectN N rnds ⟨c, singleBudget i b⟩).2 = ⟨c + m * N, singleBudget i (b - m)⟩
      ∧ i ∉ (selectN N rnds ⟨c, singleBudget i b⟩).1
  | 0, b, _, c, _, rnds, hlen => by
      have h0 : rnds = [] := List.length_eq_zero.mp (by simpa using hlen)
      subst h0
      refine ⟨?_, by simp [selectN]⟩
      show (⟨c, singleBudget i b⟩ : ProxyState) = _
      congr 1
      · omega
      · simp
  | m + 1, b, hmb, c, hi, rnds, hlen => by
      have hb1 : (0 : Int) < b := by
        have hc : ((m : Int) + 1) ≤ b := by push_cast at hmb; omega
        omega
      have emul : (m + 1) * (N - 1) = (N - 1) + m * (N - 1) := by ring
      have hlen1 : (rnds.take (N - 1)).length = N - 1 := by
        rw [List.length_take, hlen, emul]
        omega
      have hlen2 : (rnds.drop (N - 1)).length = m * (N - 1) := by
        rw [List.length_drop, hlen, emul]
        omega
      have hsplit : rnds = rnds.take (N - 1) ++ rnds.drop (N - 1) :=
        (List.take_append_drop _ _).symm
      rw [hsplit, selectN_append]
      have hcyc := selectN_cycle N hN b hb1 c (rnds.take (N - 1)) hlen1
      rw [hi] at hcyc
      rw [hcyc]
      have hih := selectN_cycles N i hN m (b - 1) (by push_cast at hmb ⊢; omega) (c + N)
        (by
          have e : c + N + 1 = c + 1 + N := by omega
          rw [e, Nat.add_mod_right]
          exact hi)
        (rnds.drop (N - 1)) hlen2
      constructor
      · show (selectN N (rnds.drop (N - 1)) ⟨c + N, singleBudget i (b - 1)⟩).2 = _
        rw [hih.1]
        congr 1
        · have e2 : (m + 1) * N = N + m * N := by ring
          omega
        · push_cast
          ring_nf
      · show i ∉ _ ++ _
        rw [List.mem_append]
        push_neg
        refine ⟨?_, hih.2⟩
        intro hmem
        rw [List.mem_map] at hmem
        obtain ⟨j, hj, hji⟩ := hmem
        rw [List.mem_range] at hj
        apply add_mod_ne N c (1 + j) (by omega) (by omega)
        rw [hi]
        have e : c + 1 + (1 + j) = c + 2 + j := by omega
        rw [e]
        exact hji

/-- Claim C2 (amended: stated for a pool with at least one other eligible
backend, `N ≥ 2`; see the counterexample for `N = 1`): after a dial failure
sets backend `i = (c+1) % N`'s skip budget to 5, starting right before
`i`'s turn, backend `i` is excluded from selection for exactly the 5
subsequent selection rounds in which its index would otherwise have been
chosen — each such round (one per `N - 1` calls) decrements its budget by
one and moves on — and on the next round after the budget reaches zero,
backend `i` is eligible and returned again. -/
theorem c2_backoff (N c : Nat) (hN : 2 ≤ N) (rnds : List Nat)
    (hlen : rnds.length = 5 * (N - 1)) :
    ((c + 1) % N) ∉ (selectN N rnds ⟨c, singleBudget ((c + 1) % N) 5⟩).1
    ∧ (∀ m, m ≤ 5 →
        (selectN N (rnds.take (m * (N - 1))) ⟨c, singleBudget ((c + 1) % N) 5⟩).2 =
          ⟨c + m * N, singleBudget ((c + 1) % N) (5 - (m : Int))⟩)
    ∧ (∀ r, (selectBackend N r
        (selectN N rnds ⟨c, singleBudget ((c + 1) % N) 5⟩).2).1 = (c + 1) % N) := by
  have hall := selectN_cycles N ((c + 1) % N) hN 5 5 (by norm_num) c rfl rnds hlen
  refine ⟨hall.2, ?_, ?_⟩
  · intro m hm
    have hlenm : (rnds.take (m * (N - 1))).length = m * (N - 1) := by
      rw [List.length_take, hlen]
      have : m * (N - 1) ≤ 5 * (N - 1) := Nat.mul_le_mul_right _ hm
      omega
    have h := selectN_cycles N ((c + 1) % N) hN m 5 (by omega) c rfl
      (rnds.take (m * (N - 1))) hlenm
    rw [h.1]
  · intro r
    rw [hall.1]
    have helig :
        (⟨c + 5 * N, singleBudget ((c + 1) % N) (5 - (5 : Nat))⟩ : ProxyState).desolate
          ((c + 5 * N + 1) % N) ≤ 0 := by
      show singleBudget ((c + 1) % N) (5 - (5 : Nat)) ((c + 5 * N + 1) % N) ≤ 0
      simp only [singleBudget]
      split <;> simp
    rw [selectBackend_eligible N r (by omega) _ helig]
    show (c + 5 * N + 1) % N = (c + 1) % N
    have e : c + 5 * N + 1 = c + 1 + 5 * N := by omega
    rw [e, Nat.add_mul_mod_self_right]

/-- Claim C2 counterexample: with a single-backend pool, after a dial
failure sets backend 0's skip budget to 5, the very next selection — a
round in which index 0 would otherwise be chosen — still returns backend 0
(through the exhausted-attempts random fallback of websocketproxy.go:83-86)
even though its budget is positive; the budget is merely decremented to 4.
Backend 0 is therefore not excluded from selection for the next 5 such
rounds as the claim states. -/
theorem c2_backoff_counterexample :
    (0 : Int) < singleBudget 0 5 0
    ∧ (selectBackend 1 0 ⟨0, singleBudget 0 5⟩).1 = 0
    ∧ (selectBackend 1 0 ⟨0, singleBudget 0 5⟩).2.desolate 0 = 4 := by
  refine ⟨by decide, rfl, by decide⟩

/-- Witness for the amended C2 at `N = 2`, counter `0` (so `i = 1`), budget
5: the five following selections are all backend 0, and the next selection
returns backend 1 again. -/
theorem c2_backoff_witness :
    2 ≤ 2
    ∧ ([0, 0, 0, 0, 0] : List Nat).length = 5 * (2 - 1)
    ∧ (selectN 2 [0, 0, 0, 0, 0] ⟨0, singleBudget ((0 + 1) % 2) 5⟩).1 = [0, 0, 0, 0, 0]
    ∧ ((0 + 1) % 2) ∉ (selectN 2 [0, 0, 0, 0, 0] ⟨0, singleBudget ((0 + 1) % 2) 5⟩).1
    ∧ (selectBackend 2 0
        (selectN 2 [0, 0, 0, 0, 0] ⟨0, singleBudget ((0 + 1) % 2) 5⟩).2).1 = (0 + 1) % 2 := by
  refine ⟨by decide, by decide, by decide, ?_, ?_⟩
  · exact (c2_backoff 2 0 (by decide) [0, 0, 0, 0, 0] (by decide)).1
  · exact (c2_backoff 2 0 (by decide) [0, 0, 0, 0, 0] (by decide)).2.2 0

/-- Claim C4 counterexample: for a backend base URL with a nonempty base
path (`/base`) and an inbound request for `/p`, the resolved URL's path is
`/p` — the backend base URL's path is discarded outright, so the resolved
URL's base-path does not come from the backend's base URL (it is not
`/base/p`, nor does `/base` appear at all). -/
theorem c4_resolver_counterexample :
    getRequestURL ⟨"ws", "backend.example", "/base", "", ""⟩
        ⟨emptyHeader, "", false, ⟨"http", "client.example", "/p", "q=1", "frag"⟩⟩ =
      ⟨"ws", "backend.example", "/p", "q=1", "frag"⟩
    ∧ (getRequestURL ⟨"ws", "backend.example", "/base", "", ""⟩
        ⟨emptyHeader, "", false, ⟨"http", "client.example", "/p", "q=1", "frag"⟩⟩).path ≠
      "/base" ++ "/p" := by
  exact ⟨rfl, by decide⟩

/-- Claim C4 (amended): for every registered backend base URL and every
inbound request, the resolver produces the URL whose scheme and host come
from the backend's base URL and whose path, raw query string and fragment
come wholly from the inbound request; the backend base URL's path is
replaced, not used as a base-path prefix. -/
theorem c4_resolver (target : URL) (r : Request) :
    getRequestURL target r =
      ⟨target.scheme, target.host, r.url.path, r.url.rawQuery, r.url.fragment⟩ := rfl

/-- Claim C1: for a pool of `N ≥ 1` backends in which every backend's skip
budget is zero or absent, `N` consecutive `selectBackend` calls (with no
intervening mutation of the health map) return each index in `[0, N)`
exactly once — the list of selections is the consecutive round-robin
sequence `(reqCount+1+k) % N`, a permutation of `List.range N`, each
selection one more than the previous modulo `N` — with the shared counter
incremented exactly once per call and the budget map unchanged. -/
theorem c1_round_robin (N : Nat) (hN : 0 < N) (st : ProxyState)
    (hhealthy : ∀ j, st.desolate j = 0) (rnds : List Nat) (hlen : rnds.length = N) :
    (selectN N rnds st).1 = (List.range N).map (fun k => (st.reqCount + 1 + k) % N)
    ∧ ((selectN N rnds st).1).Perm (List.range N)
    ∧ (∀ k, k + 1 < N →
        (selectN N rnds st).1.getD (k + 1) 0 = ((selectN N rnds st).1.getD k 0 + 1) % N)
    ∧ (∀ k, k ≤ N → (selectN N (rnds.take k) st).2.reqCount = st.reqCount + k)
    ∧ (selectN N rnds st).2.desolate = st.desolate := by
  have hrun := selectN_run N hN rnds st (fun j _ => le_of_eq (hhealthy _))
  rw [hlen] at hrun
  have hlist : (selectN N rnds st).1 =
      (List.range N).map (fun k => (st.reqCount + 1 + k) % N) := by rw [hrun]
  have hgetD : ∀ k, k < N →
      ((List.range N).map (fun j => (st.reqCount + 1 + j) % N)).getD k 0 =
        (st.reqCount + 1 + k) % N := by
    intro k hk
    have hk' : k < ((List.range N).map (fun j => (st.reqCount + 1 + j) % N)).length := by
      simpa using hk
    rw [List.getD_eq_getElem _ _ hk']
    simp
  have hnodup : ((List.range N).map (fun k => (st.reqCount + 1 + k) % N)).Nodup := by
    refine List.Nodup.map_on ?_ (List.nodup_range N)
    intro x hx y hy hxy
    simp only [List.mem_range] at hx hy
    rcases Nat.lt_trichotomy x y with hlt | heq | hgt
    · exfalso
      apply add_mod_ne N (st.reqCount + x) (y - x) (by omega) (by omega)
      have e1 : st.reqCount + x + 1 + (y - x) = st.reqCount + 1 + y := by omega
      have e2 : st.reqCount + x + 1 = st.reqCount + 1 + x := by omega
      rw [e1, e2]
      exact hxy.symm
    · exact heq
    · exfalso
      apply add_mod_ne N (st.reqCount + y) (x - y) (by omega) (by omega)
      have e1 : st.reqCount + y + 1 + (x - y) = st.reqCount + 1 + x := by omega
      have e2 : st.reqCount + y + 1 = st.reqCount + 1 + y := by omega
      rw [e1, e2]
      exact hxy
  have hsub : (List.range N).map (fun k => (st.reqCount + 1 + k) % N) ⊆ List.range N := by
    intro x hx
    simp only [List.mem_map, List.mem_range] at hx ⊢
    obtain ⟨k, _, rfl⟩ := hx
    exact Nat.mod_lt _ hN
  have hperm : ((List.range N).map (fun k => (st.reqCount + 1 + k) % N)).Perm (List.range N) :=
    (List.subperm_of_subset hnodup hsub).perm_of_length_le (by simp)
  refine ⟨hlist, by rw [hlist]; exact hperm, ?_, ?_, by rw [hrun]⟩
  · intro k hk
    rw [hlist, hgetD (k + 1) (by omega), hgetD k (by omega), Nat.mod_add_mod]
    have e : st.reqCount + 1 + k + 1 = st.reqCount + 1 + (k + 1) := by omega
    rw [e]
  · intro k hk
    have hlk : (rnds.take k).length = k := by
      rw [List.length_take, hlen]
      omega
    have htake := selectN_run N hN (rnds.take k) st (fun j _ => le_of_eq (hhealthy _))
    rw [htake, hlk]

/-- Witness for C1 at `N = 3`, counter `0`, all budgets zero: the three
selections are `[1, 2, 0]`, a permutation of `range 3`. -/
theorem c1_round_robin_witness :
    (0 : Nat) < 3
    ∧ (∀ j, (⟨0, fun _ => 0⟩ : ProxyState).desolate j = 0)
    ∧ ([5, 6, 7] : List Nat).length = 3
    ∧ (selectN 3 [5, 6, 7] ⟨0, fun _ => 0⟩).1 = [1, 2, 0]
    ∧ ((selectN 3 [5, 6, 7] ⟨0, fun _ => 0⟩).1).Perm (List.range 3) := by
  refine ⟨by decide, fun j => rfl, by decide, by decide, ?_⟩
  exact (c1_round_robin 3 (by decide) ⟨0, fun _ => 0⟩ (fun j => rfl) [5, 6, 7] rfl).2.1

/-- Claim C3: for every pool with `N ≥ 1` backends and every health-map
state, one `selectBackend` call returns an index in `[0, N)`, advances the
shared counter at most `N` times (one per internal attempt, of which there
are at most `N`), and when every backend has a positive skip budget the
whole attempt allowance is consumed and the call returns the random
fallback index `rnd % N`, ignoring health. -/
theorem c3_selection_liveness (N rnd : Nat) (st : ProxyState) (hN : 0 < N) :
    (selectBackend N rnd st).1 < N
    ∧ (selectBackend N rnd st).2.reqCount ≤ st.reqCount + N
    ∧ ((∀ j, 0 < st.desolate j) → (selectBackend N rnd st).1 = rnd % N) := by
  refine ⟨(selectLoop_bound N rnd hN N st).1, (selectLoop_bound N rnd hN N st).2, ?_⟩
  intro hall
  exact selectLoop_all_skip N rnd N (le_refl N) st (fun j _ => hall _)

/-- Witness for C3 at `N = 2`, all budgets `2` (total outage), random
oracle `7`: the call returns `7 % 2 = 1 < 2`. -/
theorem c3_selection_liveness_witness :
    (0 : Nat) < 2
    ∧ (∀ j, (0 : Int) < (⟨0, fun _ => 2⟩ : ProxyState).desolate j)
    ∧ (selectBackend 2 7 ⟨0, fun _ => 2⟩).1 = 7 % 2
    ∧ (selectBackend 2 7 ⟨0, fun _ => 2⟩).1 < 2 := by
  have hall : ∀ j, (0 : Int) < (⟨0, fun _ => 2⟩ : ProxyState).desolate j := by
    intro j
    show (0 : Int) < 2
    decide
  exact ⟨by decide, hall,
    (c3_selection_liveness 2 7 ⟨0, fun _ => 2⟩ (by decide)).2.2 hall,
    (c3_selection_liveness 2 7 ⟨0, fun _ => 2⟩ (by decide)).1⟩

/-! ## Header forwarding (C5) -/

/-- Folding `Add` over a list of values appends them all, in order, to the
key's value list. -/
lemma foldl_hAdd_same (k : String) :
    ∀ (vs : List String) (h : Header),
      (vs.foldl (fun h v => hAdd h k v) h) k = h k ++ vs
  | [], _ => by simp
  | v :: vs, h => by
      rw [List.foldl_cons, foldl_hAdd_same k vs (hAdd h k v)]
      simp [hAdd]

/-- Folding `Add` over one key leaves every other key untouched. -/
lemma foldl_hAdd_ne (k k' : String) (hne : k' ≠ k) :
    ∀ (vs : List String) (h : Header),
      (vs.foldl (fun h v => hAdd h k v) h) k' = h k'
  | [], _ => rfl
  | v :: vs, h => by
      rw [List.foldl_cons, foldl_hAdd_ne k k' hne vs (hAdd h k v)]
      simp [hAdd, hne]

/-- Claim C5: for every inbound request whose peer address parses as
`host:port`, the outbound header set built for the backend dial carries:
`Origin` copied through exactly when present; all `Sec-WebSocket-Protocol`
values in their original order; all `Cookie` values; `X-Forwarded-For`
equal to any prior values joined by `", "` with the peer IP appended (just
the peer IP when there were none); `X-Forwarded-Proto` equal to `"https"`
exactly when the inbound connection was TLS-terminated here and `"http"`
otherwise; and the `Director` hook is applied after all of the above. -/
theorem c5_forwarded_headers (req : Request) (ip port : String)
    (hsplit : splitHostPort req.remoteAddr = some (ip, port))
    (d : Request → Header → Header) :
    (hGet req.header "Origin" ≠ "" →
        buildRequestHeader req "Origin" = [hGet req.header "Origin"])
    ∧ (hGet req.header "Origin" = "" → buildRequestHeader req "Origin" = [])
    ∧ buildRequestHeader req "Sec-Websocket-Protocol" = req.header "Sec-Websocket-Protocol"
    ∧ buildRequestHeader req "Cookie" = req.header "Cookie"
    ∧ buildRequestHeader req "X-Forwarded-For" =
        [if req.header "X-Forwarded-For" ≠ [] then
            String.intercalate ", " (req.header "X-Forwarded-For") ++ ", " ++ ip
          else ip]
    ∧ buildRequestHeader req "X-Forwarded-Proto" = [if req.tls then "https" else "http"]
    ∧ buildRequestHeaderD (some d) req = d req (buildRequestHeader req) := by
  refine ⟨?_, ?_, ?_, ?_, ?_, ?_, rfl⟩
  · intro horig
    simp only [buildRequestHeader, hsplit]
    by_cases htls : req.tls <;>
      simp [htls, horig, hSet, hAdd, emptyHeader,
        foldl_hAdd_ne "Sec-Websocket-Protocol" "Origin" (by decide),
        foldl_hAdd_ne "Cookie" "Origin" (by decide)]
  · intro horig
    simp only [buildRequestHeader, hsplit]
    by_cases htls : req.tls <;>
      simp [htls, horig, hSet, hAdd, emptyHeader,
        foldl_hAdd_ne "Sec-Websocket-Protocol" "Origin" (by decide),
        foldl_hAdd_ne "Cookie" "Origin" (by decide)]
  · simp only [buildRequestHeader, hsplit]
    by_cases htls : req.tls <;> by_cases horig : hGet req.header "Origin" = "" <;>
      simp [htls, horig, hSet, hAdd, emptyHeader,
        foldl_hAdd_same "Sec-Websocket-Protocol",
        foldl_hAdd_ne "Cookie" "Sec-Websocket-Protocol" (by decide)]
  · simp only [buildRequestHeader, hsplit]
    by_cases htls : req.tls <;> by_cases horig : hGet req.header "Origin" = "" <;>
      simp [htls, horig, hSet, hAdd, emptyHeader,
        foldl_hAdd_same "Cookie",
        foldl_hAdd_ne "Sec-Websocket-Protocol" "Cookie" (by decide)]
  · simp only [buildRequestHeader, hsplit]
    by_cases htls : req.tls <;> simp [htls, hSet]
  · simp only [buildRequestHeader, hsplit]
    by_cases htls : req.tls <;> simp [htls, hSet]

/-- A concrete inbound request matching the spec's header-fidelity example:
two `Sec-WebSocket-Protocol` values, an existing `X-Forwarded-For: 1.2.3.4`,
peer `5.6.7.8:1234`, no TLS. -/
def reqW : Request :=
  ⟨fun k => if k = "Sec-Websocket-Protocol" then ["chat", "superchat"]
    else if k = "X-Forwarded-For" then ["1.2.3.4"] else [],
   "5.6.7.8:1234", false, default⟩

/-- Witness for C5 on `reqW`: both protocol values survive in order,
`X-Forwarded-For` becomes `1.2.3.4, 5.6.7.8`, and the proxy reports
`http`. -/
theorem c5_forwarded_headers_witness :
    splitHostPort reqW.remoteAddr = some ("5.6.7.8", "1234")
    ∧ buildRequestHeader reqW "Sec-Websocket-Protocol" = ["chat", "superchat"]
    ∧ buildRequestHeader reqW "X-Forwarded-For" = ["1.2.3.4, 5.6.7.8"]
    ∧ buildRequestHeader reqW "X-Forwarded-Proto" = ["http"] := by
  have h := c5_forwarded_headers reqW "5.6.7.8" "1234" (by decide) (fun _ h => h)
  refine ⟨by decide, ?_, ?_, ?_⟩
  · exact h.2.2.1.trans (by decide)
  · exact h.2.2.2.2.1.trans (by decide)
  · exact h.2.2.2.2.2.1.trans (by decide)

/-! ## Connection establishment (C6, C7, C10) -/

/-- `connectBackend` propagates a dial error unchanged in its first
component. -/
lemma connectBackend_fst_error (dial : URL → Header → Except String DialResp)
    (director : Option (Request → Header → Header)) (rnd : Nat)
    (backends : List URL) (req : Request) (st : ProxyState) (e : String)
    (he : dial (getRequestURL (backends.getD (selectBackend backends.length rnd st).1 default) req)
        (buildRequestHeaderD director req) = .error e) :
    (connectBackend dial director rnd backends req st).1 = .error e := by
  simp only [connectBackend, he]

/-- `connectBackend` on a successful dial, in full. -/
lemma connectBackend_ok (dial : URL → Header → Except String DialResp)
    (director : Option (Request → Header → Header)) (rnd : Nat)
    (backends : List URL) (req : Request) (st : ProxyState) (resp : DialResp)
    (hok : dial (getRequestURL (backends.getD (selectBackend backends.length rnd st).1 default) req)
        (buildRequestHeaderD director req) = .ok resp) :
    connectBackend dial director rnd backends req st =
      (.ok (resp.conn, reduceUpgradeHeader resp.respHeader),
       ⟨(selectBackend backends.length rnd st).2.reqCount,
        updateMap (selectBackend backends.length rnd st).2.desolate
          (selectBackend backends.length rnd st).1 0⟩) := by
  simp only [connectBackend, hok]

/-- Claim C6: a single establishment attempt on dial failure sets the
selected backend's skip budget to exactly 5 and returns the dial error
itself (no retry happens inside `connectBackend`); on dial success it
resets that backend's budget to 0 and returns a reduced header set that is
empty at every key other than `Sec-Websocket-Protocol` and `Set-Cookie`
and carries those two (first value each) exactly when the backend's
handshake response had them. -/
theorem c6_establish_one (dial : URL → Header → Except String DialResp)
    (director : Option (Request → Header → Header)) (rnd : Nat)
    (backends : List URL) (req : Request) (st : ProxyState)
    (_hN : 0 < backends.length) :
    (∀ e, dial (getRequestURL (backends.getD (selectBackend backends.length rnd st).1 default) req)
          (buildRequestHeaderD director req) = .error e →
        connectBackend dial director rnd backends req st =
          (.error e,
           ⟨(selectBackend backends.length rnd st).2.reqCount,
            updateMap (selectBackend backends.length rnd st).2.desolate
              (selectBackend backends.length rnd st).1 5⟩))
    ∧ (∀ resp, dial (getRequestURL (backends.getD (selectBackend backends.length rnd st).1 default) req)
          (buildRequestHeaderD director req) = .ok resp →
        connectBackend dial director rnd backends req st =
          (.ok (resp.conn, reduceUpgradeHeader resp.respHeader),
           ⟨(selectBackend backends.length rnd st).2.reqCount,
            updateMap (selectBackend backends.length rnd st).2.desolate
              (selectBackend backends.length rnd st).1 0⟩))
    ∧ (∀ (resp : Header) (k : String), k ≠ "Sec-Websocket-Protocol" → k ≠ "Set-Cookie" →
        reduceUpgradeHeader resp k = [])
    ∧ (∀ resp : Header, hGet resp "Sec-Websocket-Protocol" ≠ "" →
        reduceUpgradeHeader resp "Sec-Websocket-Protocol" = [hGet resp "Sec-Websocket-Protocol"])
    ∧ (∀ resp : Header, hGet resp "Set-Cookie" ≠ "" →
        reduceUpgradeHeader resp "Set-Cookie" = [hGet resp "Set-Cookie"]) := by
  refine ⟨?_, ?_, ?_, ?_, ?_⟩
  · intro e he
    simp only [connectBackend, he]
  · intro resp hok
    simp only [connectBackend, hok]
  · intro resp k h1 h2
    by_cases hsw : hGet resp "Sec-Websocket-Protocol" = "" <;>
      by_cases hsc : hGet resp "Set-Cookie" = "" <;>
        simp [reduceUpgradeHeader, hSet, emptyHeader, hsw, hsc, h1, h2]
  · intro resp hsw
    by_cases hsc : hGet resp "Set-Cookie" = "" <;>
      simp [reduceUpgradeHeader, hSet, emptyHeader, hsw, hsc]
  · intro resp hsc
    by_cases hsw : hGet resp "Sec-Websocket-Protocol" = "" <;>
      simp [reduceUpgradeHeader, hSet, emptyHeader, hsw, hsc]

/-- A one-backend pool and a dialer whose dials always fail. -/
def urlW : URL := ⟨"ws", "127.0.0.1:9001", "", "", ""⟩

/-- A second backend URL for multi-backend witnesses. -/
def urlW2 : URL := ⟨"ws", "127.0.0.1:9002", "", "", ""⟩

/-- A dial capability that always fails. -/
def dialFailW : URL → Header → Except String DialResp := fun _ _ => .error "down"

/-- Witness for C6: against a one-backend pool with an always-failing
dialer, `connectBackend` returns the dial error and pencils budget 5 in for
the selected backend. -/
theorem c6_establish_one_witness :
    0 < ([urlW] : List URL).length
    ∧ dialFailW
        (getRequestURL (([urlW] : List URL).getD (selectBackend 1 0 ⟨0, fun _ => 0⟩).1 default) reqW)
        (buildRequestHeaderD none reqW) = .error "down"
    ∧ connectBackend dialFailW none 0 [urlW] reqW ⟨0, fun _ => 0⟩ =
        (.error "down",
         ⟨(selectBackend 1 0 ⟨0, fun _ => 0⟩).2.reqCount,
          updateMap (selectBackend 1 0 ⟨0, fun _ => 0⟩).2.desolate
            (selectBackend 1 0 ⟨0, fun _ => 0⟩).1 5⟩) := by
  refine ⟨by decide, rfl, ?_⟩
  exact (c6_establish_one dialFailW none 0 [urlW] reqW ⟨0, fun _ => 0⟩ (by decide)).1 "down" rfl

/-- When every dial fails, every attempt of the retry loop fails and the
loop reports the single pool-level error. -/
lemma tryLoop_all_fail (dial : Nat → URL → Header → Except String DialResp)
    (director : Option (Request → Header → Header)) (rnd : Nat → Nat)
    (backends : List URL) (req : Request)
    (hfail : ∀ n u h, ∃ e, dial n u h = Except.error e) :
    ∀ (fuel i : Nat) (st : ProxyState),
      (tryLoop dial director rnd backends req i fuel st).1 = .error "No backend available"
  | 0, _, _ => rfl
  | fuel + 1, i, st => by
      obtain ⟨e, he⟩ := hfail i
        (getRequestURL (backends.getD (selectBackend backends.length (rnd i) st).1 default) req)
        (buildRequestHeaderD director req)
      have hcb := connectBackend_fst_error (dial i) director (rnd i) backends req st e he
      simp only [tryLoop, hcb]
      exact tryLoop_all_fail dial director rnd backends req hfail fuel (i + 1) _

/-- When the first `k` attempts' dials fail and the `k`-th succeeds with
`resp` (independently of URL and headers), the retry loop returns `resp`'s
connection together with its reduced upgrade headers. -/
lemma tryLoop_first_success (dial : Nat → URL → Header → Except String DialResp)
    (director : Option (Request → Header → Header)) (rnd : Nat → Nat)
    (backends : List URL) (req : Request) (resp : DialResp) :
    ∀ (k fuel i : Nat) (st : ProxyState), k < fuel →
      (∀ n u h, n < i + k → ∃ e, dial n u h = Except.error e) →
      (∀ u h, dial (i + k) u h = .ok resp) →
      (tryLoop dial director rnd backends req i fuel st).1 =
        .ok (resp.conn, reduceUpgradeHeader resp.respHeader)
  | k, 0, _, _, hk, _, _ => absurd hk (Nat.not_lt_zero k)
  | 0, fuel + 1, i, st, _, _, hok => by
      have hcb := connectBackend_ok (dial i) director (rnd i) backends req st resp (hok _ _)
      simp only [tryLoop, hcb]
  | k + 1, fuel + 1, i, st, hk, hfail, hok => by
      obtain ⟨e, he⟩ := hfail i
        (getRequestURL (backends.getD (selectBackend backends.length (rnd i) st).1 default) req)
        (buildRequestHeaderD director req) (by omega)
      have hcb := connectBackend_fst_error (dial i) director (rnd i) backends req st e he
      simp only [tryLoop, hcb]
      refine tryLoop_first_success dial director rnd backends req resp k fuel (i + 1) _
        (by omega) (fun n u h hn => hfail n u h (by omega)) (fun u h => ?_)
      have e2 : i + 1 + k = i + (k + 1) := by omega
      rw [e2]
      exact hok u h

/-- Claim C7: the pool-level establishment operation runs the single
attempt at most `N = len(Backends)` times (the loop's attempt allowance is
literally the pool size); if every dial fails it reports the single
`"No backend available"` error, in which case the handler answers with HTTP
500 and the fixed diagnostic body (`http.Error`'s message plus newline) and
never reaches the upgrade step (the outcome is the same for every upgrade
capability); and if the first `k` dials fail and the `k`-th succeeds, the
first successful connection is returned together with its upgrade
headers. -/
theorem c7_establish_any (dial : Nat → URL → Header → Except String DialResp)
    (director : Option (Request → Header → Header)) (rnd : Nat → Nat)
    (upgrade : Request → Header → Except String Nat)
    (backends : List URL) (req : Request) (st : ProxyState) :
    tryGetBackendConn dial director rnd backends req st =
        tryLoop dial director rnd backends req 0 backends.length st
    ∧ ((∀ n u h, ∃ e, dial n u h = Except.error e) →
        (tryGetBackendConn dial director rnd backends req st).1 =
            .error "No backend available"
        ∧ (serveHTTP dial director rnd upgrade backends req st).1 =
            .errorResponse 500 "internal server error (code: 2)\n")
    ∧ (∀ (k : Nat) (resp : DialResp), k < backends.length →
        (∀ n u h, n < k → ∃ e, dial n u h = Except.error e) →
        (∀ u h, dial k u h = .ok resp) →
        (tryGetBackendConn dial director rnd backends req st).1 =
          .ok (resp.conn, reduceUpgradeHeader resp.respHeader)) := by
  refine ⟨rfl, ?_, ?_⟩
  · intro hfail
    have h1 : (tryGetBackendConn dial director rnd backends req st).1 =
        .error "No backend available" :=
      tryLoop_all_fail dial director rnd backends req hfail backends.length 0 st
    refine ⟨h1, ?_⟩
    simp only [serveHTTP, h1]
  · intro k resp hk hfail hok
    refine tryLoop_first_success dial director rnd backends req resp k backends.length 0 st
      hk (fun n u h hn => hfail n u h (by omega)) (fun u h => ?_)
    have e0 : 0 + k = k := by omega
    rw [e0]
    exact hok u h

/-- A dial capability that fails on attempt 0 and succeeds from attempt 1
with connection id 7 and an empty handshake-response header set. -/
def dialW : Nat → URL → Header → Except String DialResp :=
  fun n _ _ => if n = 0 then .error "down" else .ok ⟨7, emptyHeader⟩

/-- Witness for C7: two backends, attempt 0's dial fails and attempt 1's
succeeds, so the pool-level operation returns the first successful
connection with its reduced upgrade headers. -/
theorem c7_establish_any_witness :
    (1 : Nat) < ([urlW, urlW2] : List URL).length
    ∧ (∀ u h, dialW 1 u h = .ok ⟨7, emptyHeader⟩)
    ∧ (tryGetBackendConn dialW none (fun _ => 0) [urlW, urlW2] reqW ⟨0, fun _ => 0⟩).1 =
        .ok ((7 : Nat), reduceUpgradeHeader emptyHeader) := by
  refine ⟨by decide, fun u h => rfl, ?_⟩
  exact (c7_establish_any dialW none (fun _ => 0) (fun _ _ => .ok 0) [urlW, urlW2] reqW
      ⟨0, fun _ => 0⟩).2.2 1 ⟨7, emptyHeader⟩ (by decide)
    (fun n u h hn => ⟨"down", by
      have hn0 : n = 0 := by omega
      subst hn0
      rfl⟩)
    (fun u h => rfl)

/-- Claim C10: with an empty pool, the handler's retry loop runs zero
iterations, so the request immediately yields the `"No backend available"`
error and the HTTP 500 response with the fixed diagnostic body, for every
dial, random and upgrade capability; the final state equals the initial
state (no selection-counter increment, no budget change), i.e. the
backend-selection operation — whose `% N` and `Intn(N)` computations
require `N ≥ 1` — is never invoked. -/
theorem c10_empty_pool (dial : Nat → URL → Header → Except String DialResp)
    (director : Option (Request → Header → Header)) (rnd : Nat → Nat)
    (upgrade : Request → Header → Except String Nat) (req : Request) (st : ProxyState) :
    tryGetBackendConn dial director rnd [] req st = (.error "No backend available", st)
    ∧ serveHTTP dial director rnd upgrade [] req st =
        (.errorResponse 500 "internal server error (code: 2)\n", st) :=
  ⟨rfl, rfl⟩

/-! ## The relay tasks (C8, C9) -/

/-- Claim C8 is false of the code (code bug): on a trace whose first read
fails with `"read failed"`, the relay loop terminates with that error
(third component), but the value sent into the session's error channel
(second component) is `nil` — the outer `err` of websocketproxy.go:225,
never assigned because `msgType, msg, err := src.ReadMessage()` at line 227
declares a fresh `err` shadowing it — and not the loop's terminal error. -/
theorem c8_error_channel_code_bug :
    (replicateWebsocketConn (fun _ => none) [Except.error "read failed"]).2.2 =
        some "read failed"
    ∧ (replicateWebsocketConn (fun _ => none) [Except.error "read failed"]).2.1 = some none
    ∧ (replicateWebsocketConn (fun _ => none) [Except.error "read failed"]).2.1 ≠
        some (some "read failed") :=
  ⟨rfl, rfl, by decide⟩

/-- With all writes succeeding, a relay task writes exactly the messages
read before the first read error, unmodified and in order. -/
lemma relayTask_all_writes_ok (outerErr : Option String) :
    ∀ reads, (relayTask (fun _ => none) outerErr reads).1 = msgsBeforeReadError reads
  | [] => rfl
  | .error _ :: _ => rfl
  | .ok m :: rest => by
      simp only [relayTask, msgsBeforeReadError]
      rw [relayTask_all_writes_ok outerErr rest]

/-- Each forwarded message equals the corresponding read result. -/
lemma msgsBeforeReadError_getD :
    ∀ (reads : List (Except String Msg)) (j : Nat),
      j < (msgsBeforeReadError reads).length →
      reads.getD j (Except.error "") = .ok ((msgsBeforeReadError reads).getD j (0, []))
  | [], j, hj => by simp [msgsBeforeReadError] at hj
  | .error e :: _, j, hj => by simp [msgsBeforeReadError] at hj
  | .ok m :: _, 0, _ => rfl
  | .ok m :: rest, j + 1, hj => by
      simp only [msgsBeforeReadError, List.getD_cons_succ]
      exact msgsBeforeReadError_getD rest j (by simpa [msgsBeforeReadError] using hj)

/-- Claim C9: for every sequence of read results on one direction of a
session (writes succeeding), the relay task writes to the opposite
connection exactly the messages read before the first read error — each
with the same type tag and byte-identical payload, in the order received,
with no reordering or batching: the `j`-th written message equals the
`j`-th read result. -/
theorem c9_relay_fidelity (reads : List (Except String Msg)) :
    (replicateWebsocketConn (fun _ => none) reads).1 = msgsBeforeReadError reads
    ∧ (∀ j, j < ((replicateWebsocketConn (fun _ => none) reads).1).length →
        reads.getD j (Except.error "") =
          .ok (((replicateWebsocketConn (fun _ => none) reads).1).getD j (0, []))) := by
  have h : (replicateWebsocketConn (fun _ => none) reads).1 = msgsBeforeReadError reads :=
    relayTask_all_writes_ok none reads
  refine ⟨h, ?_⟩
  intro j hj
  rw [h] at hj ⊢
  exact msgsBeforeReadError_getD reads j hj

/-- Witness for C9 on the spec's relay-fidelity example: the binary message
`(2, [0x00, 0xFF, 0x10])` read before EOF is forwarded with the same type
tag and byte-identical payload. -/
theorem c9_relay_fidelity_witness :
    (replicateWebsocketConn (fun _ => none) [.ok (2, [0, 255, 16]), .error "eof"]).1 =
        [(2, [0, 255, 16])]
    ∧ (0 : Nat) <
        ((replicateWebsocketConn (fun _ => none) [.ok (2, [0, 255, 16]), .error "eof"]).1).length
    ∧ ([.ok (2, [0, 255, 16]), .error "eof"] : List (Except String Msg)).getD 0
          (Except.error "") =
        .ok (((replicateWebsocketConn (fun _ => none)
          [.ok (2, [0, 255, 16]), .error "eof"]).1).getD 0 (0, [])) := by
  refine ⟨?_, by decide, ?_⟩
  · exact (c9_relay_fidelity [.ok (2, [0, 255, 16]), .error "eof"]).1.trans (by decide)
  · exact (c9_relay_fidelity [.ok (2, [0, 255, 16]), .error "eof"]).2 0 (by decide)

end WebsocketProxy
